import Mathlib

/-!
# Verification of the PortScanner backend (`backend/server.js`)

This file gives a shallow embedding of the safety-critical core of the
PortScanner backend: address classification (`isPrivateIp` and helpers),
target resolution (`resolveTarget`), port validation (`validatePorts`),
rate limiting (`enforceRateLimit`), the TCP probe (`performPortCheck`)
and the scan handler (`handleScan`).

Modelling conventions:
* JS strings are Lean `String`s; all string processing is done on
  `String.toList` with structurally recursive list functions so that every
  definition evaluates by kernel reduction.
* JS numbers are modelled as `Option ℚ` (`JsNum`), with `none` playing the
  role of `NaN`.  The `Number(...)` coercion is modelled by `jsNumber` /
  `jsNumberOfJVal` for the decimal forms that occur in this program;
  exotic numeric string forms (hex/binary literals, exponents, `Infinity`)
  are conservatively modelled as `NaN`.
* `net.isIP` (a Node platform primitive, not repository code) is modelled
  by `isIP`, following Node's `IPv4Reg`/`IPv6Reg`: an IPv4 literal is four
  dot-separated decimal octets `0..255` without leading zeros; an IPv6
  literal is hex quads separated by `:` with at most one `::`, an optional
  trailing embedded IPv4 (counting as two quads), a total weight of eight
  quads (at most seven alongside a `::`), and an optional `%zone` suffix.
* Asynchronous socket behaviour is abstracted by a `SocketEvent`: the
  single decisive event (connect / timeout / error) that wins the race in
  `performPortCheck`'s promise; DNS is abstracted by a lookup environment
  `String → Option (List String)` (`none` = rejected lookup).
-/

deriving instance DecidableEq for Except

/-- Whitespace characters removed by JS `String.prototype.trim`
(modelled for the ASCII whitespace forms). -/
def isJsWhitespace (c : Char) : Bool :=
  c = ' ' || c = '\t' || c = '\n' || c = '\r' || c = '\x0b' || c = '\x0c'

/-- Models JS `s.trim()` on a character list: strip whitespace from both ends. -/
def jsTrimList (l : List Char) : List Char :=
  ((l.dropWhile isJsWhitespace).reverse.dropWhile isJsWhitespace).reverse

/-- Value of a list of decimal digit characters, most significant first. -/
def digitsVal (l : List Char) : ℕ :=
  l.foldl (fun acc c => 10 * acc + (c.toNat - 48)) 0

/-- Unsigned part of the JS `Number(...)` string coercion: decimal digits with
an optional fractional part.  Returns `none` for `NaN`. -/
def jsNumberBody (l : List Char) : Option ℚ :=
  let ip := l.takeWhile (fun c => c ≠ '.')
  let rest := l.dropWhile (fun c => c ≠ '.')
  match rest with
  | [] =>
    if !ip.isEmpty && ip.all Char.isDigit then some (digitsVal ip : ℚ) else none
  | _ :: fp =>
    if (!ip.isEmpty || !fp.isEmpty) && ip.all Char.isDigit && fp.all Char.isDigit
        && !fp.contains '.' then
      some ((digitsVal ip : ℚ) + (digitsVal fp : ℚ) / 10 ^ fp.length)
    else none

/-- JS `Number(s)` on a character list: trim, empty string coerces to `0`,
optional sign, then `jsNumberBody`.  `none` models `NaN`. -/
def jsNumberChars (l : List Char) : Option ℚ :=
  let t := jsTrimList l
  if t.isEmpty then some 0
  else if t.head? = some '-' then Option.map (fun q => -q) (jsNumberBody t.tail)
  else if t.head? = some '+' then jsNumberBody t.tail
  else jsNumberBody t

/-- JS `Number(s)` for a string argument. -/
def jsNumber (s : String) : Option ℚ :=
  jsNumberChars s.toList

/-- A JS number: `none` is `NaN`. -/
abbrev JsNum := Option ℚ

/-- Scalar JSON values that can appear in the `ports` array of a request
(composite JSON values are outside the model). -/
inductive JVal where
  | num (q : ℚ)
  | str (s : String)
  | boolean (b : Bool)
  | null
  deriving DecidableEq

/-- JS `Number(v)` coercion on a scalar JSON value. -/
def jsNumberOfJVal : JVal → JsNum
  | .num q => some q
  | .str s => jsNumber s
  | .boolean b => some (if b then 1 else 0)
  | .null => some 0

/-- Split a character list at every occurrence of a separator character;
models JS `String.prototype.split` with a single-character separator
(and Lean's `String.splitOn`). -/
def splitOnChar (sep : Char) : List Char → List (List Char)
  | [] => [[]]
  | c :: rest =>
    if c = sep then [] :: splitOnChar sep rest
    else
      match splitOnChar sep rest with
      | [] => [[c]]
      | h :: t => (c :: h) :: t

/-- Split a character list at every (leftmost-first, non-overlapping)
occurrence of the two-character separator `::`. -/
def splitOnDoubleColon : List Char → List (List Char)
  | [] => [[]]
  | ':' :: ':' :: rest => [] :: splitOnDoubleColon rest
  | c :: rest =>
    match splitOnDoubleColon rest with
    | [] => [[c]]
    | h :: t => (c :: h) :: t

/-- `pre` is a prefix of `s`; models JS `String.prototype.startsWith`. -/
def strStartsWith (s pre : String) : Bool :=
  List.isPrefixOf pre.toList s.toList

/-- ASCII lower-casing of a string; models JS `String.prototype.toLowerCase`
for the ASCII strings this program compares against. -/
def lowerStr (s : String) : String :=
  String.mk (s.toList.map Char.toLower)

/-- One decimal octet of an IPv4 literal, per Node's `v4Seg` regex
`25[0-5]|2[0-4][0-9]|1[0-9][0-9]|[1-9][0-9]|[0-9]`: one to three decimal
digits, no leading zero, value at most 255 (for one- and two-digit octets
the value bound is automatic and the extra test is redundant but harmless). -/
def octetVal? (l : List Char) : Option ℕ :=
  match l with
  | [a] =>
    if a.isDigit && digitsVal [a] ≤ 255 then some (digitsVal [a]) else none
  | [a, b] =>
    if a.isDigit && b.isDigit && a ≠ '0' && digitsVal [a, b] ≤ 255 then
      some (digitsVal [a, b])
    else none
  | [a, b, c] =>
    if a.isDigit && b.isDigit && c.isDigit && a ≠ '0' && digitsVal [a, b, c] ≤ 255 then
      some (digitsVal [a, b, c])
    else none
  | _ => none

/-- Parse a character list as an IPv4 literal (per Node's `IPv4Reg`):
four dot-separated octets.  Returns the four octet values. -/
def parseIPv4List? (l : List Char) : Option (ℕ × ℕ × ℕ × ℕ) :=
  match splitOnChar '.' l with
  | [p1, p2, p3, p4] =>
    match octetVal? p1, octetVal? p2, octetVal? p3, octetVal? p4 with
    | some a, some b, some c, some d => some (a, b, c, d)
    | _, _, _, _ => none
  | _ => none

/-- Parse a string as an IPv4 literal, returning the four octet values. -/
def parseIPv4? (s : String) : Option (ℕ × ℕ × ℕ × ℕ) :=
  parseIPv4List? s.toList

/-- A hexadecimal digit (both cases), per Node's `v6Seg`. -/
def isHexChar (c : Char) : Bool :=
  c.isDigit || ('a' ≤ c && c ≤ 'f') || ('A' ≤ c && c ≤ 'F')

/-- One group of an IPv6 literal: one to four hex digits. -/
def isHexQuad (l : List Char) : Bool :=
  decide (0 < l.length) && decide (l.length ≤ 4) && l.all isHexChar

/-- Weight (in 16-bit groups) of the colon-separated segments on one side of
an IPv6 literal: all hex quads, or hex quads followed by one embedded IPv4
literal (which counts as two groups).  `none` if ill-formed. -/
def ipv6SegsWeight? (segs : List (List Char)) : Option ℕ :=
  if segs.all isHexQuad then some segs.length
  else
    match segs.getLast? with
    | none => none
    | some lastSeg =>
      if segs.dropLast.all isHexQuad && (parseIPv4List? lastSeg).isSome then
        some (segs.length + 1)
      else none

/-- Characters allowed in an IPv6 zone identifier, per Node's `IPv6Reg`
suffix `%[0-9a-zA-Z-.:]{1,}`. -/
def isZoneChar (c : Char) : Bool :=
  c.isAlphanum || c = '-' || c = '.' || c = ':'

/-- The part of an IPv6 literal before any `%zone` suffix: either no `::`
and exactly eight groups of weight, or exactly one `::` with the two sides
well-formed and of total weight at most seven. -/
def isIPv6Main (main : List Char) : Bool :=
  match splitOnDoubleColon main with
  | [whole] => ipv6SegsWeight? (splitOnChar ':' whole) = some 8
  | [left, right] =>
    let lsegs := if left.isEmpty then [] else splitOnChar ':' left
    let rsegs := if right.isEmpty then [] else splitOnChar ':' right
    lsegs.all isHexQuad &&
      (match ipv6SegsWeight? rsegs with
       | some w => decide (lsegs.length + w ≤ 7)
       | none => false)
  | _ => false

/-- An IPv6 literal per Node's `IPv6Reg`: main part plus optional
nonempty `%zone` suffix. -/
def isIPv6List (l : List Char) : Bool :=
  match splitOnChar '%' l with
  | [main] => isIPv6Main main
  | [main, zone] => isIPv6Main main && !zone.isEmpty && zone.all isZoneChar
  | _ => false

/-- Models Node's `net.isIP`: `4` for an IPv4 literal, `6` for an IPv6
literal, `0` otherwise. -/
def isIP (s : String) : ℕ :=
  if (parseIPv4? s).isSome then 4
  else if isIPv6List s.toList then 6
  else 0

/-- Translation of `isPrivateIpv4` (`server.js` lines 14–27): split on `.`,
coerce each part with `Number`, fail closed on wrong octet count / `NaN` /
out-of-range, then test the private ranges. -/
def isPrivateIpv4 (address : String) : Bool :=
  match (splitOnChar '.' address.toList).map jsNumberChars with
  | [some a, some b, some c, some d] =>
    if a < 0 ∨ 255 < a ∨ b < 0 ∨ 255 < b ∨ c < 0 ∨ 255 < c ∨ d < 0 ∨ 255 < d then true
    else if a = 10 then true
    else if a = 127 then true
    else if a = 0 then true
    else if a = 169 ∧ b = 254 then true
    else if a = 172 ∧ 16 ≤ b ∧ b ≤ 31 then true
    else if a = 192 ∧ b = 168 then true
    else false
  | _ => true

/-- Translation of `isPrivateIpv6` (`server.js` lines 29–35). -/
def isPrivateIpv6 (address : String) : Bool :=
  let normalized := lowerStr address
  if normalized = ("::1") then true
  else if strStartsWith normalized ("fe80:") then true
  else if strStartsWith normalized ("fc") || strStartsWith normalized ("fd") then true
  else false

/-- Translation of `isPrivateIp` (`server.js` lines 37–42).  The only falsy
JS string is the empty string. -/
def isPrivateIp (address : String) : Bool :=
  if address = "" then true
  else if isIP address = 4 then isPrivateIpv4 address
  else if isIP address = 6 then isPrivateIpv6 address
  else true

/-- Translation of `isValidDomain`'s per-label regex piece
`(?!-)[A-Za-z0-9-]{1,63}(?<!-)`: 1–63 characters, letters/digits/hyphen,
no leading or trailing hyphen. -/
def isValidLabel (l : List Char) : Bool :=
  decide (0 < l.length) && decide (l.length ≤ 63) &&
    l.all (fun c => c.isAlphanum || c = '-') &&
    l.head? != some '-' && l.getLast? != some '-'

/-- Translation of `isValidDomain` (`server.js` lines 44–47): at least two
dot-separated valid labels. -/
def isValidDomain (target : String) : Bool :=
  let labels := splitOnChar '.' target.toList
  decide (2 ≤ labels.length) && labels.all isValidLabel

/-- `ALLOWED_PORTS` (`server.js` lines 5–7), as JS numbers. -/
def allowedPorts : List JsNum :=
  [some 21, some 22, some 25, some 53, some 80, some 110, some 143, some 443,
   some 465, some 587, some 993, some 995, some 8080]

/-- `MAX_PORTS` (`server.js` line 8). -/
def maxPorts : ℕ := 20

/-- First-occurrence deduplication with an accumulator of already-seen
elements; models the insertion-order iteration of a JS `Set` (under
SameValueZero, under which `NaN` — our `none` — equals itself). -/
def dedupeAux {α : Type} [DecidableEq α] (seen : List α) : List α → List α
  | [] => []
  | a :: rest =>
    if a ∈ seen then dedupeAux seen rest else a :: dedupeAux (a :: seen) rest

/-- Translation of `dedupePorts` (`server.js` lines 49–51):
`Array.from(new Set(ports))`. -/
def dedupePorts (ports : List JsNum) : List JsNum :=
  dedupeAux [] ports

/-- Translation of `validatePorts` (`server.js` lines 53–69).  A non-array
`ports` payload field is modelled as `none`; `Array.isArray` failing is the
first error branch.  `ALLOWED_PORTS.includes` is SameValueZero membership. -/
def validatePorts (ports : Option (List JVal)) : Except String (List JsNum) :=
  match ports with
  | none => .error ("Ports must be an array")
  | some l =>
    let uniquePorts := dedupePorts (l.map jsNumberOfJVal)
    if uniquePorts.length = 0 then .error ("At least one port is required")
    else if maxPorts < uniquePorts.length then .error ("Cannot scan more than 20 ports")
    else if 0 < (uniquePorts.filter (fun p => decide (p ∉ allowedPorts))).length then
      .error ("Ports must be in the allowed list")
    else .ok uniquePorts

/-- The result type of `resolveTarget`. -/
structure ResolvedTarget where
  hostname : String
  address : String
  deriving DecidableEq

/-- Translation of `resolveTarget` (`server.js` lines 71–94).  DNS is
abstracted by `lookup`: `dns.lookup(trimmed, { all: true })` returns the
address strings `lookup trimmed`, and a rejected lookup (NXDOMAIN etc.) is
`none`, propagating as an error.  The only falsy JS string is the empty
string, and `net.isIP(trimmed)` is truthy exactly when nonzero. -/
def resolveTarget (lookup : String → Option (List String)) (target : String) :
    Except String ResolvedTarget :=
  if target = "" then .error ("Target is required")
  else
    let trimmed := String.mk (jsTrimList target.toList)
    if lowerStr trimmed = ("localhost") then .error ("Localhost is not allowed")
    else if isIP trimmed ≠ 0 then
      if isPrivateIp trimmed then .error ("Private IPs are not allowed")
      else .ok ⟨trimmed, trimmed⟩
    else if !isValidDomain trimmed then .error ("Invalid domain name")
    else
      match lookup trimmed with
      | none => .error ("DNS lookup failed")
      | some addresses =>
        match addresses.find? (fun a => !isPrivateIp a) with
        | none => .error ("Target resolves to a private IP")
        | some addr => .ok ⟨trimmed, addr⟩

/-- The `rateLimitMap`: client identity → last-admitted timestamp (ms). -/
abbrev RLMap := List (String × ℤ)

/-- `Map.prototype.get`: first binding of the key, if any. -/
def mapGet : RLMap → String → Option ℤ
  | [], _ => none
  | (k, v) :: rest, key => if k = key then some v else mapGet rest key

/-- `Map.prototype.set`: replace the binding in place, or append a new one. -/
def mapSet : RLMap → String → ℤ → RLMap
  | [], key, v => [(key, v)]
  | (k, w) :: rest, key, v =>
    if k = key then (k, v) :: rest else (k, w) :: mapSet rest key v

/-- `RATE_LIMIT_WINDOW_MS` (`server.js` line 10). -/
def rateLimitWindowMs : ℤ := 10000

/-- Translation of `enforceRateLimit` (`server.js` lines 96–104), with the
map passed explicitly.  `rateLimitMap.get(clientId) || 0` defaults a
missing entry to `0` (and a stored `0` is falsy but `|| 0` leaves it `0`). -/
def enforceRateLimit (now : ℤ) (m : RLMap) (clientId : String) : Bool × RLMap :=
  let last := (mapGet m clientId).getD 0
  if now - last < rateLimitWindowMs then (false, m)
  else (true, mapSet m clientId now)

/-- The decisive socket event in `performPortCheck`'s promise: the first of
`connect` / `timeout` / `error` to fire (the `resolved` flag and `once`
listeners make later events no-ops). -/
inductive SocketEvent where
  | connected (elapsedMs : ℕ)
  | timedOut
  | errored (code : String)
  deriving DecidableEq

/-- The per-port result object: `latency_ms := none` models the field being
absent from the JS object. -/
structure PortResult where
  port : JsNum
  status : String
  latency_ms : Option ℕ
  deriving DecidableEq

/-- `MIN_TIMEOUT_MS` (`server.js` line 9). -/
def minTimeoutMs : ℤ := 1000

/-- The value passed to `socket.setTimeout` in `performPortCheck`
(`server.js` lines 106–109): `Math.max(timeoutMs, MIN_TIMEOUT_MS)`, with
the defaulted parameter `timeoutMs = MIN_TIMEOUT_MS` modelled as `none`. -/
def appliedSocketTimeout (timeoutMs : Option ℤ) : ℤ :=
  max (timeoutMs.getD minTimeoutMs) minTimeoutMs

/-- Translation of `performPortCheck` (`server.js` lines 106–142).  `host`
and `timeoutMs` parameterize the network environment and the socket timeout
(`appliedSocketTimeout timeoutMs`); which listener fires first is the
abstract event `ev`.  `connected elapsed` carries `Date.now() - start`. -/
def performPortCheck (host : String) (port : JsNum) (timeoutMs : Option ℤ)
    (ev : SocketEvent) : PortResult :=
  match ev with
  | .connected elapsed => { port := port, status := ("open"), latency_ms := some elapsed }
  | .timedOut => { port := port, status := ("filtered"), latency_ms := none }
  | .errored code =>
    if code = ("ECONNREFUSED") then
      { port := port, status := ("closed"), latency_ms := none }
    else
      { port := port, status := ("filtered"), latency_ms := none }

/-- The sequential probe loop of `handleScan` (`server.js` lines 163–167):
one awaited `performPortCheck` per validated port, results pushed in
request order (the timeout argument is omitted at this call site). -/
def checkAll (sockEv : JsNum → SocketEvent) (address : String) (ports : List JsNum) :
    List PortResult :=
  ports.map (fun p => performPortCheck address p none (sockEv p))

/-- The success payload assembled by `handleScan` (`server.js` lines
169–177); `timestamp` is `new Date().toISOString()`, passed in as `tsIso`. -/
structure ScanResult where
  target : String
  ip : String
  results : List PortResult
  timestamp : String
  deriving DecidableEq

/-- The three response shapes of `handleScan`: 429 rate-limit, 400
validation failure, 200 success. -/
inductive ScanOutcome where
  | rateLimited (msg : String)
  | failed (msg : String)
  | success (sr : ScanResult)
  deriving DecidableEq

/-- Translation of `handleScan` (`server.js` lines 144–184) for one request,
with the rate-limit map threaded explicitly: admission first, then port
validation, then target resolution, then the probe loop.  `clientId` is
`request.socket.remoteAddress || 'unknown'`; body parsing is assumed done
(`target`/`ports` are the payload fields). -/
def handleScan (lookup : String → Option (List String)) (sockEv : JsNum → SocketEvent)
    (now : ℤ) (tsIso : String) (st : RLMap) (clientId : String)
    (target : String) (ports : Option (List JVal)) : ScanOutcome × RLMap :=
  match enforceRateLimit now st clientId with
  | (false, st1) => (.rateLimited ("Too many requests: wait 10 seconds between scans."), st1)
  | (true, st1) =>
    match validatePorts ports with
    | .error e => (.failed e, st1)
    | .ok validatedPorts =>
      match resolveTarget lookup target with
      | .error e => (.failed e, st1)
      | .ok rt =>
        (.success { target := rt.hostname, ip := rt.address,
                    results := checkAll sockEv rt.address validatedPorts,
                    timestamp := tsIso }, st1)

/-- Spec-level predicate for claim C1: the unspecified address literal
(`0.0.0.0` for IPv4, `::` for IPv6), one of the address classes the spec
says `resolveTarget` can never return. -/
def isUnspecifiedAddress (s : String) : Bool :=
  s = ("0.0.0.0") || s = ("::")



theorem dropWhile_all_false {α : Type} {p : α → Bool} {l : List α}
    (h : ∀ c ∈ l, p c = false) : l.dropWhile p = l := by
  cases l with
  | nil => rfl
  | cons a rest => simp [List.dropWhile_cons, h a (List.mem_cons_self a rest)]

theorem takeWhile_all_true {α : Type} {p : α → Bool} :
    ∀ {l : List α}, (∀ c ∈ l, p c = true) → l.takeWhile p = l := by
  intro l
  induction l with
  | nil => intro _; rfl
  | cons a rest ih =>
    intro h
    have ha := h a (List.mem_cons_self a rest)
    have hr := ih (fun c hc => h c (List.mem_cons_of_mem a hc))
    simp [List.takeWhile_cons, ha, hr]

theorem dropWhile_all_true {α : Type} {p : α → Bool} :
    ∀ {l : List α}, (∀ c ∈ l, p c = true) → l.dropWhile p = [] := by
  intro l
  induction l with
  | nil => intro _; rfl
  | cons a rest ih =>
    intro h
    have ha := h a (List.mem_cons_self a rest)
    have hr := ih (fun c hc => h c (List.mem_cons_of_mem a hc))
    simp [List.dropWhile_cons, ha, hr]

theorem jsTrimList_eq_self {l : List Char}
    (h : ∀ c ∈ l, isJsWhitespace c = false) : jsTrimList l = l := by
  unfold jsTrimList
  rw [dropWhile_all_false h]
  rw [dropWhile_all_false (fun c hc => h c (List.mem_reverse.mp hc))]
  exact List.reverse_reverse l

theorem isDigit_ne {c d : Char} (h : c.isDigit = true) (hd : d.isDigit = false) :
    c ≠ d := by
  intro he
  rw [he, hd] at h
  exact Bool.false_ne_true h

theorem not_ws_of_isDigit {c : Char} (h : c.isDigit = true) :
    isJsWhitespace c = false := by
  cases hws : isJsWhitespace c with
  | false => rfl
  | true =>
    exfalso
    simp only [isJsWhitespace, Bool.or_eq_true, decide_eq_true_eq, or_assoc] at hws
    rcases hws with rfl | rfl | rfl | rfl | rfl | rfl <;> exact absurd h (by decide)

theorem jsNumberChars_digits {l : List Char} (hne : l ≠ [])
    (hd : ∀ c ∈ l, c.isDigit = true) :
    jsNumberChars l = some (digitsVal l : ℚ) := by
  have htrim : jsTrimList l = l :=
    jsTrimList_eq_self (fun c hc => not_ws_of_isDigit (hd c hc))
  obtain ⟨a, rest, rfl⟩ : ∃ a rest, l = a :: rest := by
    cases l with
    | nil => exact absurd rfl hne
    | cons a rest => exact ⟨a, rest, rfl⟩
  have ha := hd a (List.mem_cons_self a rest)
  have hdot : ∀ c ∈ a :: rest, (!decide (c = '.')) = true := by
    intro c hc
    simp [isDigit_ne (hd c hc) (show Char.isDigit '.' = false by decide)]
  have hminus : a ≠ '-' := isDigit_ne ha (by decide)
  have hplus : a ≠ '+' := isDigit_ne ha (by decide)
  have hadot : a ≠ '.' := isDigit_ne ha (by decide)
  have htake : List.takeWhile (fun c => !decide (c = '.')) (a :: rest) = a :: rest :=
    takeWhile_all_true hdot
  have hdrop : List.dropWhile (fun c => !decide (c = '.')) (a :: rest) = [] :=
    dropWhile_all_true hdot
  simp [jsNumberChars, jsNumberBody, htrim, hminus, hplus, htake, hdrop, hadot, ha]
  exact fun x hx => hd x (List.mem_cons_of_mem a hx)

theorem octetVal?_sound {l : List Char} {v : ℕ} (h : octetVal? l = some v) :
    l ≠ [] ∧ (∀ c ∈ l, c.isDigit = true) ∧ v = digitsVal l ∧ v ≤ 255 := by
  rcases l with _ | ⟨a, _ | ⟨b, _ | ⟨c, _ | ⟨d, t⟩⟩⟩⟩
  · simp [octetVal?] at h
  · rw [octetVal?] at h
    split_ifs at h with hc
    simp only [Bool.and_eq_true, decide_eq_true_eq] at hc
    injection h with h3
    refine ⟨by simp, ?_, h3.symm, h3 ▸ hc.2⟩
    intro x hx
    simp at hx
    subst hx
    exact hc.1
  · rw [octetVal?] at h
    split_ifs at h with hc
    simp only [Bool.and_eq_true, decide_eq_true_eq] at hc
    injection h with h3
    refine ⟨by simp, ?_, h3.symm, h3 ▸ hc.2⟩
    intro x hx
    simp at hx
    rcases hx with rfl | rfl
    · exact hc.1.1.1
    · exact hc.1.1.2
  · rw [octetVal?] at h
    split_ifs at h with hc
    simp only [Bool.and_eq_true, decide_eq_true_eq] at hc
    injection h with h3
    refine ⟨by simp, ?_, h3.symm, h3 ▸ hc.2⟩
    intro x hx
    simp at hx
    rcases hx with rfl | rfl | rfl
    · exact hc.1.1.1.1
    · exact hc.1.1.1.2
    · exact hc.1.1.2
  · simp [octetVal?] at h

theorem jsNumberChars_of_octet {l : List Char} {v : ℕ} (h : octetVal? l = some v) :
    jsNumberChars l = some (v : ℚ) := by
  obtain ⟨hne, hd, hv, _⟩ := octetVal?_sound h
  rw [jsNumberChars_digits hne hd, hv]

theorem isIP_eq_four {s : String} (h : (parseIPv4? s).isSome = true) : isIP s = 4 := by
  simp [isIP, h]

theorem ne_empty_of_parse {s : String} {t : ℕ × ℕ × ℕ × ℕ}
    (h : parseIPv4? s = some t) : s ≠ "" := by
  intro he
  subst he
  have hz : parseIPv4? ("") = none := by decide
  rw [hz] at h
  exact Option.noConfusion h

theorem isPrivateIp_four {s : String} (hne : s ≠ "") (h4 : isIP s = 4) :
    isPrivateIp s = isPrivateIpv4 s := by
  simp [isPrivateIp, hne, h4]

theorem isPrivateIp_six {s : String} (hne : s ≠ "") (h6 : isIP s = 6) :
    isPrivateIp s = isPrivateIpv6 s := by
  have h4 : ¬ isIP s = 4 := by rw [h6]; decide
  simp [isPrivateIp, hne, h4, h6]

theorem ne_empty_of_isIP_six {s : String} (h6 : isIP s = 6) : s ≠ "" := by
  intro he
  subst he
  exact absurd h6 (by decide)

theorem isPrivateIpv4_iff {s : String} {a b c d : ℕ}
    (h : parseIPv4? s = some (a, b, c, d)) :
    (isPrivateIpv4 s = true ↔
      (a = 10 ∨ a = 127 ∨ a = 0 ∨ (a = 169 ∧ b = 254) ∨
        (a = 172 ∧ 16 ≤ b ∧ b ≤ 31) ∨ (a = 192 ∧ b = 168))) := by
  rw [parseIPv4?, parseIPv4List?] at h
  split at h
  · split at h
    · rename_i heq o1 o2 o3 o4 av bv cv dv h1 h2 h3 h4
      injection h with h5
      injection h5 with ha5 h5
      injection h5 with hb5 h5
      injection h5 with hc5 hd5
      subst ha5; subst hb5; subst hc5; subst hd5
      obtain ⟨-, -, -, hba⟩ := octetVal?_sound h1
      obtain ⟨-, -, -, hbb⟩ := octetVal?_sound h2
      rw [isPrivateIpv4, heq]
      simp only [List.map_cons, List.map_nil, jsNumberChars_of_octet h1,
        jsNumberChars_of_octet h2, jsNumberChars_of_octet h3,
        jsNumberChars_of_octet h4]
      have hr : ¬(((av : ℚ) < 0 ∨ 255 < (av : ℚ) ∨ (bv : ℚ) < 0 ∨ 255 < (bv : ℚ) ∨
          (cv : ℚ) < 0 ∨ 255 < (cv : ℚ) ∨ (dv : ℚ) < 0 ∨ 255 < (dv : ℚ))) := by
        push_neg
        refine ⟨Nat.cast_nonneg av, by exact_mod_cast hba, Nat.cast_nonneg bv,
          by exact_mod_cast hbb, Nat.cast_nonneg cv, ?_, Nat.cast_nonneg dv, ?_⟩
        · obtain ⟨-, -, -, hbc⟩ := octetVal?_sound h3
          exact_mod_cast hbc
        · obtain ⟨-, -, -, hbd⟩ := octetVal?_sound h4
          exact_mod_cast hbd
      have e10 : ((av : ℚ) = 10) ↔ av = 10 := by exact_mod_cast Iff.rfl
      have e127 : ((av : ℚ) = 127) ↔ av = 127 := by exact_mod_cast Iff.rfl
      have e0 : ((av : ℚ) = 0) ↔ av = 0 := by exact_mod_cast Iff.rfl
      have e169 : ((av : ℚ) = 169) ↔ av = 169 := by exact_mod_cast Iff.rfl
      have e254 : ((bv : ℚ) = 254) ↔ bv = 254 := by exact_mod_cast Iff.rfl
      have e172 : ((av : ℚ) = 172) ↔ av = 172 := by exact_mod_cast Iff.rfl
      have e16 : ((16 : ℚ) ≤ (bv : ℚ)) ↔ 16 ≤ bv := by exact_mod_cast Iff.rfl
      have e31 : ((bv : ℚ) ≤ 31) ↔ bv ≤ 31 := by exact_mod_cast Iff.rfl
      have e192 : ((av : ℚ) = 192) ↔ av = 192 := by exact_mod_cast Iff.rfl
      have e168 : ((bv : ℚ) = 168) ↔ bv = 168 := by exact_mod_cast Iff.rfl
      rw [if_neg hr]
      simp only [e10, e127, e0, e169, e254, e172, e16, e31, e192, e168]
      split_ifs <;> simp_all
    · exact Option.noConfusion h
  · exact Option.noConfusion h

theorem isPrivateIpv6_iff (s : String) :
    (isPrivateIpv6 s = true ↔
      (lowerStr s = ("::1") ∨ strStartsWith (lowerStr s) ("fe80:") = true ∨
        strStartsWith (lowerStr s) ("fc") = true ∨
        strStartsWith (lowerStr s) ("fd") = true)) := by
  rw [isPrivateIpv6]
  split_ifs with h1 h2 h3 <;> simp_all

theorem dedupeAux_mem {α : Type} [DecidableEq α] (x : α) :
    ∀ (l seen : List α), (x ∈ dedupeAux seen l ↔ x ∈ l ∧ x ∉ seen)
  | [], seen => by simp [dedupeAux]
  | a :: rest, seen => by
    by_cases ha : a ∈ seen
    · rw [dedupeAux, if_pos ha, dedupeAux_mem x rest seen]
      constructor
      · rintro ⟨h1, h2⟩
        exact ⟨List.mem_cons_of_mem a h1, h2⟩
      · rintro ⟨h1, h2⟩
        rcases List.mem_cons.mp h1 with rfl | h1
        · exact absurd ha h2
        · exact ⟨h1, h2⟩
    · rw [dedupeAux, if_neg ha, List.mem_cons, dedupeAux_mem x rest (a :: seen)]
      constructor
      · rintro (rfl | ⟨h1, h2⟩)
        · exact ⟨List.mem_cons_self x rest, fun hx => ha hx⟩
        · have h3 : x ∉ seen := fun hx => h2 (List.mem_cons_of_mem a hx)
          exact ⟨List.mem_cons_of_mem a h1, h3⟩
      · rintro ⟨h1, h2⟩
        rcases List.mem_cons.mp h1 with rfl | h1
        · exact Or.inl rfl
        · by_cases hxa : x = a
          · exact Or.inl hxa
          · refine Or.inr ⟨h1, ?_⟩
            intro hx
            rcases List.mem_cons.mp hx with h | h
            · exact hxa h
            · exact h2 h

theorem dedupeAux_nodup {α : Type} [DecidableEq α] :
    ∀ (l seen : List α), (dedupeAux seen l).Nodup
  | [], _ => by simp [dedupeAux]
  | a :: rest, seen => by
    by_cases ha : a ∈ seen
    · rw [dedupeAux, if_pos ha]
      exact dedupeAux_nodup rest seen
    · rw [dedupeAux, if_neg ha]
      refine List.nodup_cons.mpr ⟨?_, dedupeAux_nodup rest (a :: seen)⟩
      intro hmem
      have h := (dedupeAux_mem a rest (a :: seen)).mp hmem
      exact h.2 (List.mem_cons_self a seen)

theorem dedupeAux_sublist {α : Type} [DecidableEq α] :
    ∀ (l seen : List α), (dedupeAux seen l).Sublist l
  | [], _ => by simp [dedupeAux]
  | a :: rest, seen => by
    by_cases ha : a ∈ seen
    · rw [dedupeAux, if_pos ha]
      exact (dedupeAux_sublist rest seen).cons a
    · rw [dedupeAux, if_neg ha]
      exact (dedupeAux_sublist rest (a :: seen)).cons₂ a

theorem dedupeAux_of_nodup {α : Type} [DecidableEq α] :
    ∀ (l seen : List α), l.Nodup → (∀ x ∈ l, x ∉ seen) → dedupeAux seen l = l
  | [], _, _, _ => rfl
  | a :: rest, seen, hnd, hs => by
    have ha : a ∉ seen := hs a (List.mem_cons_self a rest)
    rw [dedupeAux, if_neg ha]
    congr 1
    apply dedupeAux_of_nodup rest (a :: seen) (List.nodup_cons.mp hnd).2
    intro x hx hmem
    rcases List.mem_cons.mp hmem with rfl | hmem
    · exact (List.nodup_cons.mp hnd).1 hx
    · exact hs x (List.mem_cons_of_mem a hx) hmem

theorem dedupePorts_mem (x : JsNum) (l : List JsNum) :
    x ∈ dedupePorts l ↔ x ∈ l := by
  rw [dedupePorts, dedupeAux_mem]
  simp

theorem dedupePorts_nodup (l : List JsNum) : (dedupePorts l).Nodup :=
  dedupeAux_nodup l []

theorem dedupePorts_sublist (l : List JsNum) : (dedupePorts l).Sublist l :=
  dedupeAux_sublist l []

theorem dedupePorts_of_nodup {l : List JsNum} (h : l.Nodup) : dedupePorts l = l :=
  dedupeAux_of_nodup l [] h (by simp)

theorem mapGet_mapSet_self (m : RLMap) (k : String) (v : ℤ) :
    mapGet (mapSet m k v) k = some v := by
  induction m with
  | nil => simp [mapSet, mapGet]
  | cons p rest ih =>
    obtain ⟨k1, v1⟩ := p
    by_cases hk : k1 = k
    · subst hk
      simp [mapSet, mapGet]
    · simp [mapSet, mapGet, hk, ih]

theorem mapGet_mapSet_other (m : RLMap) {k k' : String} (v : ℤ) (h : k' ≠ k) :
    mapGet (mapSet m k v) k' = mapGet m k' := by
  induction m with
  | nil => simp [mapSet, mapGet, Ne.symm h]
  | cons p rest ih =>
    obtain ⟨k1, v1⟩ := p
    by_cases hk : k1 = k
    · subst hk
      simp [mapSet, mapGet, Ne.symm h]
    · by_cases hk2 : k1 = k'
      · subst hk2
        simp [mapSet, mapGet, hk]
      · simp [mapSet, mapGet, hk, hk2, ih]

theorem validatePorts_ok_iff {l : List JVal} {out : List JsNum} :
    (validatePorts (some l) = .ok out ↔
      (out = dedupePorts (l.map jsNumberOfJVal) ∧ out.length ≠ 0 ∧
        out.length ≤ maxPorts ∧ ∀ p ∈ out, p ∈ allowedPorts)) := by
  rw [validatePorts]
  split_ifs with h1 h2 h3
  · constructor
    · intro he
      exact he.elim
    · rintro ⟨rfl, hlen, -, -⟩
      exact absurd h1 hlen
  · constructor
    · intro he
      exact he.elim
    · rintro ⟨rfl, -, hlen, -⟩
      omega
  · constructor
    · intro he
      exact he.elim
    · rintro ⟨rfl, -, -, hall⟩
      have hf : List.filter (fun p => decide (p ∉ allowedPorts))
          (dedupePorts (l.map jsNumberOfJVal)) = [] := by
        rw [List.filter_eq_nil_iff]
        intro p hp
        simp [hall p hp]
      rw [hf] at h3
      simp at h3
  · constructor
    · intro he
      injection he with he
      subst he
      refine ⟨rfl, h1, by omega, ?_⟩
      intro p hp
      by_contra hna
      have hf : p ∈ List.filter (fun p => decide (p ∉ allowedPorts))
          (dedupePorts (l.map jsNumberOfJVal)) :=
        List.mem_filter.mpr ⟨hp, by simp [hna]⟩
      have hlen : 0 < (List.filter (fun p => decide (p ∉ allowedPorts))
          (dedupePorts (l.map jsNumberOfJVal))).length :=
        List.length_pos.mpr (List.ne_nil_of_mem hf)
      exact h3 hlen
    · rintro ⟨rfl, -, -, -⟩
      rfl

theorem isPrivateIp_of_not_ip {s : String} (h : isIP s = 0) : isPrivateIp s = true := by
  by_cases he : s = "" <;> simp [isPrivateIp, he, h]

theorem isIP_ne_zero_of_public {s : String} (h : isPrivateIp s = false) :
    isIP s ≠ 0 := by
  intro h0
  rw [isPrivateIp_of_not_ip h0] at h
  exact Bool.noConfusion h

theorem public_v4_ranges {s : String} {a b c d : ℕ} (hp : isPrivateIp s = false)
    (h : parseIPv4? s = some (a, b, c, d)) :
    a ≠ 10 ∧ a ≠ 127 ∧ a ≠ 0 ∧ ¬(a = 169 ∧ b = 254) ∧
      ¬(a = 172 ∧ 16 ≤ b ∧ b ≤ 31) ∧ ¬(a = 192 ∧ b = 168) := by
  have hd := isPrivateIp_four (ne_empty_of_parse h) (isIP_eq_four (by rw [h]; rfl))
  rw [hp] at hd
  have hv4 : isPrivateIpv4 s = false := hd.symm
  have hnd : ¬(a = 10 ∨ a = 127 ∨ a = 0 ∨ (a = 169 ∧ b = 254) ∨
      (a = 172 ∧ 16 ≤ b ∧ b ≤ 31) ∨ (a = 192 ∧ b = 168)) := by
    intro hdj
    rw [(isPrivateIpv4_iff h).mpr hdj] at hv4
    exact Bool.noConfusion hv4
  exact ⟨fun hx => hnd (Or.inl hx),
    fun hx => hnd (Or.inr (Or.inl hx)),
    fun hx => hnd (Or.inr (Or.inr (Or.inl hx))),
    fun hx => hnd (Or.inr (Or.inr (Or.inr (Or.inl hx)))),
    fun hx => hnd (Or.inr (Or.inr (Or.inr (Or.inr (Or.inl hx))))),
    fun hx => hnd (Or.inr (Or.inr (Or.inr (Or.inr (Or.inr hx)))))⟩

theorem public_v6_prefixes {s : String} (hp : isPrivateIp s = false)
    (h6 : isIP s = 6) :
    lowerStr s ≠ ("::1") ∧ strStartsWith (lowerStr s) ("fe80:") = false ∧
      strStartsWith (lowerStr s) ("fc") = false ∧
      strStartsWith (lowerStr s) ("fd") = false := by
  have hd := isPrivateIp_six (ne_empty_of_isIP_six h6) h6
  rw [hp] at hd
  have hv6 : isPrivateIpv6 s = false := hd.symm
  have hnd : ¬(lowerStr s = ("::1") ∨ strStartsWith (lowerStr s) ("fe80:") = true ∨
      strStartsWith (lowerStr s) ("fc") = true ∨
      strStartsWith (lowerStr s) ("fd") = true) := by
    intro hdj
    rw [(isPrivateIpv6_iff s).mpr hdj] at hv6
    exact Bool.noConfusion hv6
  refine ⟨fun hx => hnd (Or.inl hx), ?_, ?_, ?_⟩
  · cases hb : strStartsWith (lowerStr s) ("fe80:") with
    | false => rfl
    | true => exact absurd (Or.inr (Or.inl hb)) hnd
  · cases hb : strStartsWith (lowerStr s) ("fc") with
    | false => rfl
    | true => exact absurd (Or.inr (Or.inr (Or.inl hb))) hnd
  · cases hb : strStartsWith (lowerStr s) ("fd") with
    | false => rfl
    | true => exact absurd (Or.inr (Or.inr (Or.inr hb))) hnd

theorem performPortCheck_port (host : String) (p : JsNum) (tm : Option ℤ)
    (ev : SocketEvent) : (performPortCheck host p tm ev).port = p := by
  cases ev with
  | connected t => rfl
  | timedOut => rfl
  | errored code =>
    by_cases hc : code = ("ECONNREFUSED") <;> simp [performPortCheck, hc]

theorem checkAll_ports (sockEv : JsNum → SocketEvent) (address : String)
    (ports : List JsNum) :
    (checkAll sockEv address ports).map PortResult.port = ports := by
  rw [checkAll, List.map_map]
  have hcomp : (PortResult.port ∘ fun p => performPortCheck address p none (sockEv p)) = id := by
    funext p
    exact performPortCheck_port address p none (sockEv p)
  rw [hcomp, List.map_id]

theorem validatePorts_some_error_iff {l : List JVal} :
    ((∃ e, validatePorts (some l) = .error e) ↔
      (dedupePorts (l.map jsNumberOfJVal) = [] ∨
        maxPorts < (dedupePorts (l.map jsNumberOfJVal)).length ∨
        ∃ p ∈ dedupePorts (l.map jsNumberOfJVal), p ∉ allowedPorts)) := by
  rw [validatePorts]
  split_ifs with h1 h2 h3
  · constructor
    · intro _
      exact Or.inl (List.length_eq_zero.mp h1)
    · intro _
      exact ⟨_, rfl⟩
  · constructor
    · intro _
      exact Or.inr (Or.inl h2)
    · intro _
      exact ⟨_, rfl⟩
  · constructor
    · intro _
      refine Or.inr (Or.inr ?_)
      have hne : List.filter (fun p => decide (p ∉ allowedPorts))
          (dedupePorts (l.map jsNumberOfJVal)) ≠ [] := by
        intro hnil
        rw [hnil] at h3
        simp at h3
      obtain ⟨p, hp⟩ := List.exists_mem_of_ne_nil _ hne
      have hm := List.mem_filter.mp hp
      exact ⟨p, hm.1, by simpa using hm.2⟩
    · intro _
      exact ⟨_, rfl⟩
  · constructor
    · rintro ⟨e, he⟩
      exact he.elim
    · rintro (hr | hr | ⟨p, hp, hna⟩)
      · exact absurd (by rw [hr]; rfl) h1
      · exact absurd hr h2
      · have hf : p ∈ List.filter (fun p => decide (p ∉ allowedPorts))
            (dedupePorts (l.map jsNumberOfJVal)) :=
          List.mem_filter.mpr ⟨hp, by simp [hna]⟩
        have hlen : 0 < (List.filter (fun p => decide (p ∉ allowedPorts))
            (dedupePorts (l.map jsNumberOfJVal))).length :=
          List.length_pos.mpr (List.ne_nil_of_mem hf)
        exact absurd hlen h3

theorem all_some_exists_map {o : List JsNum} (h : ∀ p ∈ o, ∃ q : ℚ, p = some q) :
    ∃ qs : List ℚ, o = qs.map some := by
  induction o with
  | nil => exact ⟨[], rfl⟩
  | cons p rest ih =>
    obtain ⟨q, rfl⟩ := h p (List.mem_cons_self _ _)
    obtain ⟨qs, hqs⟩ := ih (fun p hp => h p (List.mem_cons_of_mem _ hp))
    exact ⟨q :: qs, by simp [hqs]⟩

/-- Claim C2: every input string that is not a syntactically valid IPv4 or
IPv6 literal (the empty string included) is classified private by
`isPrivateIp`; the classifier is a total function, so it never throws
(fail-closed). -/
theorem claim_c2_fail_closed (s : String) (h : isIP s = 0) :
    isPrivateIp s = true :=
  isPrivateIp_of_not_ip h

/-- Witness for C2 at the empty string and a malformed IPv4 literal with an
out-of-range octet. -/
theorem claim_c2_fail_closed_witness :
    isPrivateIp ("") = true ∧ isPrivateIp ("1.2.3.999") = true :=
  ⟨claim_c2_fail_closed ("") (by decide),
   claim_c2_fail_closed ("1.2.3.999") (by decide)⟩

/-- Claim C3: on well-formed IPv4 literals `isPrivateIp` is true exactly on
10.0.0.0/8, 127.0.0.0/8, 0.0.0.0/8, 169.254.0.0/16, 172.16.0.0/12 and
192.168.0.0/16; on well-formed IPv6 literals it is true exactly for `::1`
and for case-insensitive prefixes `fe80:`, `fc`, `fd`. -/
theorem claim_c3_classifier_ranges :
    (∀ (s : String) (a b c d : ℕ), parseIPv4? s = some (a, b, c, d) →
      (isPrivateIp s = true ↔
        (a = 10 ∨ a = 127 ∨ a = 0 ∨ (a = 169 ∧ b = 254) ∨
          (a = 172 ∧ 16 ≤ b ∧ b ≤ 31) ∨ (a = 192 ∧ b = 168)))) ∧
    (∀ s : String, isIP s = 6 →
      (isPrivateIp s = true ↔
        (lowerStr s = ("::1") ∨ strStartsWith (lowerStr s) ("fe80:") = true ∨
          strStartsWith (lowerStr s) ("fc") = true ∨
          strStartsWith (lowerStr s) ("fd") = true))) := by
  constructor
  · intro s a b c d h
    rw [isPrivateIp_four (ne_empty_of_parse h) (isIP_eq_four (by rw [h]; rfl))]
    exact isPrivateIpv4_iff h
  · intro s h6
    rw [isPrivateIp_six (ne_empty_of_isIP_six h6) h6]
    exact isPrivateIpv6_iff s

/-- Witness for C3: `10.0.0.1` is private via the 10/8 range, `fe80::1` is
private via the link-local prefix. -/
theorem claim_c3_classifier_ranges_witness :
    isPrivateIp ("10.0.0.1") = true ∧ isPrivateIp ("fe80::1") = true :=
  ⟨(claim_c3_classifier_ranges.1 ("10.0.0.1") 10 0 0 1 (by decide)).mpr
      (Or.inl rfl),
   (claim_c3_classifier_ranges.2 ("fe80::1") (by decide)).mpr
      (Or.inr (Or.inl (by decide)))⟩

/-- Claim C4: every `performPortCheck` call produces exactly one
`PortResult` (the model is a total function, so no error reaches the
caller): connect gives `open` with `latency_ms` the elapsed time,
`ECONNREFUSED` gives `closed`, a timeout or any other error gives
`filtered`; the status is always one of the three, the requested port is
echoed, and `latency_ms` is present exactly when the status is `open`. -/
theorem claim_c4_probe_outcomes (host : String) (port : JsNum)
    (timeoutMs : Option ℤ) :
    (∀ t : ℕ, performPortCheck host port timeoutMs (.connected t) =
      ⟨port, ("open"), some t⟩) ∧
    (performPortCheck host port timeoutMs .timedOut =
      ⟨port, ("filtered"), none⟩) ∧
    (performPortCheck host port timeoutMs (.errored ("ECONNREFUSED")) =
      ⟨port, ("closed"), none⟩) ∧
    (∀ code : String, code ≠ ("ECONNREFUSED") →
      performPortCheck host port timeoutMs (.errored code) =
        ⟨port, ("filtered"), none⟩) ∧
    (∀ ev : SocketEvent,
      ((performPortCheck host port timeoutMs ev).status = ("open") ∨
        (performPortCheck host port timeoutMs ev).status = ("closed") ∨
        (performPortCheck host port timeoutMs ev).status = ("filtered")) ∧
      (performPortCheck host port timeoutMs ev).port = port ∧
      ((performPortCheck host port timeoutMs ev).latency_ms.isSome = true ↔
        (performPortCheck host port timeoutMs ev).status = ("open"))) := by
  refine ⟨fun t => rfl, rfl, by simp [performPortCheck], ?_, ?_⟩
  · intro code hc
    simp [performPortCheck, hc]
  · intro ev
    cases ev with
    | connected t => exact ⟨Or.inl rfl, rfl, by simp [performPortCheck]⟩
    | timedOut => exact ⟨Or.inr (Or.inr rfl), rfl, by simp [performPortCheck]⟩
    | errored code =>
      by_cases hc : code = ("ECONNREFUSED")
      · subst hc
        exact ⟨Or.inr (Or.inl (by simp [performPortCheck])),
          by simp [performPortCheck], by simp [performPortCheck]⟩
      · exact ⟨Or.inr (Or.inr (by simp [performPortCheck, hc])),
          by simp [performPortCheck, hc], by simp [performPortCheck, hc]⟩

/-- Witness for C4: a non-refusal error code resolves to `filtered`. -/
theorem claim_c4_probe_outcomes_witness :
    performPortCheck ("1.2.3.4") (some 80) none (.errored ("ECONNRESET")) =
      ⟨some 80, ("filtered"), none⟩ :=
  (claim_c4_probe_outcomes ("1.2.3.4") (some 80) none).2.2.2.1
    ("ECONNRESET") (by decide)

/-- Claim C6: the timeout applied to the socket is `max(timeoutMs, 1000)`,
so the effective per-port timeout is never below 1000 ms; an omitted
timeout argument gives exactly 1000 ms. -/
theorem claim_c6_timeout_floor :
    (∀ t : ℤ, appliedSocketTimeout (some t) = max t 1000 ∧
      1000 ≤ appliedSocketTimeout (some t)) ∧
    appliedSocketTimeout none = 1000 :=
  ⟨fun t => ⟨rfl, le_max_right t 1000⟩, rfl⟩

/-- Claim C5: `enforceRateLimit` admits a client and records `now` iff the
client has no prior record or at least 10000 ms have elapsed since its last
admitted request; when it denies, the map is returned unchanged.  The
hypothesis `10000 ≤ now` holds for every real `Date.now()` value (tens of
years of milliseconds). -/
theorem claim_c5_rate_limit (now : ℤ) (m : RLMap) (cid : String)
    (hnow : 10000 ≤ now) :
    ((enforceRateLimit now m cid).1 = true ↔
      (mapGet m cid = none ∨ ∃ t, mapGet m cid = some t ∧ 10000 ≤ now - t)) ∧
    ((enforceRateLimit now m cid).1 = true →
      ((enforceRateLimit now m cid).2 = mapSet m cid now ∧
        mapGet (enforceRateLimit now m cid).2 cid = some now ∧
        ∀ k, k ≠ cid → mapGet (enforceRateLimit now m cid).2 k = mapGet m k)) ∧
    ((enforceRateLimit now m cid).1 = false →
      (enforceRateLimit now m cid).2 = m) := by
  rcases hm : mapGet m cid with _ | t
  · have hres : enforceRateLimit now m cid = (true, mapSet m cid now) := by
      simp only [enforceRateLimit, hm, Option.getD_none]
      rw [if_neg (by simp only [rateLimitWindowMs]; omega)]
    rw [hres]
    refine ⟨by simp, ?_, ?_⟩
    · intro _
      exact ⟨rfl, mapGet_mapSet_self m cid now,
        fun k hk => mapGet_mapSet_other m now hk⟩
    · intro hfalse
      exact Bool.noConfusion hfalse
  · by_cases hlt : now - t < rateLimitWindowMs
    · have hres : enforceRateLimit now m cid = (false, m) := by
        simp only [enforceRateLimit, hm, Option.getD_some]
        rw [if_pos hlt]
      rw [hres]
      refine ⟨?_, ?_, fun _ => rfl⟩
      · constructor
        · intro hfalse
          exact Bool.noConfusion hfalse
        · rintro (hn | ⟨t', ht', hge⟩)
          · exact Option.noConfusion hn
          · injection ht' with ht'
            subst ht'
            simp only [rateLimitWindowMs] at hlt
            omega
      · intro htrue
        exact Bool.noConfusion htrue
    · have hres : enforceRateLimit now m cid = (true, mapSet m cid now) := by
        simp only [enforceRateLimit, hm, Option.getD_some]
        rw [if_neg hlt]
      rw [hres]
      refine ⟨?_, ?_, ?_⟩
      · simp only [true_iff]
        refine Or.inr ⟨t, rfl, ?_⟩
        simp only [rateLimitWindowMs] at hlt
        omega
      · intro _
        exact ⟨rfl, mapGet_mapSet_self m cid now,
          fun k hk => mapGet_mapSet_other m now hk⟩
      · intro hfalse
        exact Bool.noConfusion hfalse

/-- Witness for C5: a fresh client at `now = 20000` is admitted and
recorded; the same client 5 seconds later is denied with the map
unchanged. -/
theorem claim_c5_rate_limit_witness :
    (enforceRateLimit 20000 [] ("c")).1 = true ∧
    (enforceRateLimit 20000 [] ("c")).2 = mapSet [] ("c") 20000 ∧
    (enforceRateLimit 25000 [(("c"), 20000)] ("c")).1 = false ∧
    (enforceRateLimit 25000 [(("c"), 20000)] ("c")).2 = [(("c"), 20000)] :=
  ⟨(claim_c5_rate_limit 20000 [] ("c") (by decide)).1.mpr (Or.inl rfl),
   ((claim_c5_rate_limit 20000 [] ("c") (by decide)).2.1 (by decide)).1,
   by decide,
   (claim_c5_rate_limit 25000 [(("c"), 20000)] ("c") (by decide)).2.2 (by decide)⟩

/-- Claim C7: `validatePorts` fails exactly when the input is not an array,
or the numerically coerced deduplicated list is empty or has more than 20
members, or some coerced member is outside `ALLOWED_PORTS`; on success it
returns the coerced input deduplicated with first occurrences kept (a
duplicate-free subsequence with exactly the members of the coerced input);
an input element coercing outside the allow-list (non-numeric values
included, which coerce to `NaN`) always causes failure rather than being
dropped. -/
theorem claim_c7_validate_ports (input : Option (List JVal)) :
    ((∃ e, validatePorts input = .error e) ↔
      (input = none ∨ ∃ l, input = some l ∧
        (dedupePorts (l.map jsNumberOfJVal) = [] ∨
          maxPorts < (dedupePorts (l.map jsNumberOfJVal)).length ∨
          ∃ p ∈ l.map jsNumberOfJVal, p ∉ allowedPorts))) ∧
    (∀ l out, input = some l → validatePorts input = .ok out →
      (out = dedupePorts (l.map jsNumberOfJVal) ∧ out.Nodup ∧
        out.Sublist (l.map jsNumberOfJVal) ∧
        ∀ p, (p ∈ out ↔ p ∈ l.map jsNumberOfJVal))) ∧
    (∀ l v, input = some l → v ∈ l → jsNumberOfJVal v ∉ allowedPorts →
      ∃ e, validatePorts input = .error e) := by
  rcases input with _ | l
  · refine ⟨?_, ?_, ?_⟩
    · constructor
      · intro _
        exact Or.inl rfl
      · intro _
        exact ⟨("Ports must be an array"), rfl⟩
    · intro l out hl
      exact absurd hl (by simp)
    · intro l v hl
      exact absurd hl (by simp)
  · refine ⟨?_, ?_, ?_⟩
    · rw [validatePorts_some_error_iff]
      constructor
      · intro hcond
        refine Or.inr ⟨l, rfl, ?_⟩
        rcases hcond with hc | hc | ⟨p, hp, hna⟩
        · exact Or.inl hc
        · exact Or.inr (Or.inl hc)
        · exact Or.inr (Or.inr ⟨p, (dedupePorts_mem p _).mp hp, hna⟩)
      · rintro (hn | ⟨l', hl', hcond⟩)
        · exact Option.noConfusion hn
        · injection hl' with hl'
          subst hl'
          rcases hcond with hc | hc | ⟨p, hp, hna⟩
          · exact Or.inl hc
          · exact Or.inr (Or.inl hc)
          · exact Or.inr (Or.inr ⟨p, (dedupePorts_mem p _).mpr hp, hna⟩)
    · intro l' out hl' hok
      injection hl' with hl'
      subst hl'
      obtain ⟨hout, -, -, -⟩ := validatePorts_ok_iff.mp hok
      subst hout
      exact ⟨rfl, dedupePorts_nodup _, dedupePorts_sublist _,
        fun p => dedupePorts_mem p _⟩
    · intro l' v hl' hv hna
      injection hl' with hl'
      subst hl'
      rw [validatePorts_some_error_iff]
      refine Or.inr (Or.inr ⟨jsNumberOfJVal v, ?_, hna⟩)
      exact (dedupePorts_mem _ _).mpr (List.mem_map_of_mem jsNumberOfJVal hv)

/-- Witness for C7: `[80, 443, 80]` validates to `[80, 443]` (dedupe with
first-occurrence order), and `[9999]` fails. -/
theorem claim_c7_validate_ports_witness :
    ([Option.some (80 : ℚ), some 443] =
      dedupePorts ([JVal.num 80, JVal.num 443, JVal.num 80].map jsNumberOfJVal)) ∧
    (∃ e, validatePorts (some [JVal.num 9999]) = .error e) :=
  ⟨((claim_c7_validate_ports (some [JVal.num 80, JVal.num 443, JVal.num 80])).2.1
      [JVal.num 80, JVal.num 443, JVal.num 80] [some 80, some 443] rfl (by decide)).1,
   (claim_c7_validate_ports (some [JVal.num 9999])).2.2
      [JVal.num 9999] (JVal.num 9999) rfl (by decide) (by decide)⟩

/-- Claim C9: `validatePorts` is idempotent — feeding a successful output
back in (as JSON numbers) succeeds and returns the same list. -/
theorem claim_c9_validate_idempotent (l : List JVal) (out : List JsNum)
    (h : validatePorts (some l) = .ok out) :
    ∃ qs : List ℚ, out = qs.map some ∧
      validatePorts (some (qs.map JVal.num)) = .ok out := by
  obtain ⟨hout, hlen, hmax, hall⟩ := validatePorts_ok_iff.mp h
  have hsome : ∀ p ∈ out, ∃ q : ℚ, p = some q := by
    intro p hp
    rcases hq : p with _ | q
    · subst hq
      have hmem := hall none hp
      simp [allowedPorts] at hmem
    · exact ⟨q, rfl⟩
  obtain ⟨qs, hqs⟩ := all_some_exists_map hsome
  refine ⟨qs, hqs, ?_⟩
  rw [validatePorts_ok_iff]
  have hmapcoerce : (qs.map JVal.num).map jsNumberOfJVal = qs.map some := by
    rw [List.map_map]
    rfl
  have hnd : out.Nodup := hout ▸ dedupePorts_nodup _
  refine ⟨?_, hlen, hmax, hall⟩
  rw [hmapcoerce, ← hqs, dedupePorts_of_nodup hnd]

/-- Witness for C9 on the validated output `[80, 443]`. -/
theorem claim_c9_validate_idempotent_witness :
    ∃ qs : List ℚ, [Option.some (80 : ℚ), some 443] = qs.map some ∧
      validatePorts (some (qs.map JVal.num)) = .ok [some 80, some 443] :=
  claim_c9_validate_idempotent [JVal.num 80, JVal.num 443, JVal.num 80]
    [some 80, some 443] (by decide)

/-- Claim C8: a successful scan's `results` contain exactly one
`PortResult` per validated (deduplicated) port, in request order: mapping
each result to its port gives back the validated port list itself. -/
theorem claim_c8_results_order (lookup : String → Option (List String))
    (sockEv : JsNum → SocketEvent) (now : ℤ) (tsIso : String) (st : RLMap)
    (cid target : String) (ports : Option (List JVal)) (sr : ScanResult)
    (st2 : RLMap)
    (h : handleScan lookup sockEv now tsIso st cid target ports =
      (.success sr, st2)) :
    ∃ vps, validatePorts ports = .ok vps ∧
      sr.results.map PortResult.port = vps ∧ sr.results.length = vps.length := by
  rcases hE : enforceRateLimit now st cid with ⟨b, st1⟩
  rw [handleScan, hE] at h
  cases b with
  | false => simp at h
  | true =>
    rcases hV : validatePorts ports with e | vps <;> rw [hV] at h
    · simp at h
    · rcases hR : resolveTarget lookup target with e | rt <;> rw [hR] at h
      · simp at h
      · simp only [Prod.mk.injEq, ScanOutcome.success.injEq] at h
        obtain ⟨hsr, -⟩ := h
        refine ⟨vps, rfl, ?_, ?_⟩
        · rw [← hsr]
          exact checkAll_ports sockEv rt.address vps
        · rw [← hsr]
          simp [checkAll]

/-- Witness for C8: a concrete successful scan of `8.8.8.8` on ports
`[80, 443]` yields results whose ports are `[80, 443]` in order. -/
theorem claim_c8_results_order_witness :
    ∃ vps, validatePorts (some [JVal.num 80, JVal.num 443]) = .ok vps ∧
      (ScanResult.mk ("8.8.8.8") ("8.8.8.8")
        [⟨some 80, ("filtered"), none⟩, ⟨some 443, ("filtered"), none⟩]
        ("ts")).results.map PortResult.port = vps ∧
      (ScanResult.mk ("8.8.8.8") ("8.8.8.8")
        [⟨some 80, ("filtered"), none⟩, ⟨some 443, ("filtered"), none⟩]
        ("ts")).results.length = vps.length :=
  claim_c8_results_order (fun _ => none) (fun _ => .timedOut) 20000 ("ts")
    [] ("c") ("8.8.8.8") (some [JVal.num 80, JVal.num 443])
    (ScanResult.mk ("8.8.8.8") ("8.8.8.8")
      [⟨some 80, ("filtered"), none⟩, ⟨some 443, ("filtered"), none⟩] ("ts"))
    [(("c"), 20000)] (by decide)

/-- Claim C10: a request that passes rate-limit admission and then fails
validation (any 400-path failure) still consumes the client's window: the
admission already recorded `now`, nothing rolls it back, so any request
from the same client strictly less than 10 seconds later is rejected as
rate-limited with the map unchanged. -/
theorem claim_c10_window_consumed (lookup : String → Option (List String))
    (sockEv : JsNum → SocketEvent) (now : ℤ) (tsIso : String) (st : RLMap)
    (cid target : String) (ports : Option (List JVal)) (msg : String)
    (st1 : RLMap) (lookup2 : String → Option (List String))
    (sockEv2 : JsNum → SocketEvent) (now2 : ℤ) (ts2 : String)
    (target2 : String) (ports2 : Option (List JVal))
    (h : handleScan lookup sockEv now tsIso st cid target ports =
      (.failed msg, st1))
    (hwin : now2 - now < 10000) :
    handleScan lookup2 sockEv2 now2 ts2 st1 cid target2 ports2 =
      (.rateLimited ("Too many requests: wait 10 seconds between scans."), st1) := by
  rcases hE : enforceRateLimit now st cid with ⟨b, st1'⟩
  rw [handleScan, hE] at h
  cases b with
  | false => simp at h
  | true =>
    have hst : st1' = st1 := by
      rcases hV : validatePorts ports with e | vps <;> rw [hV] at h
      · simp only [Prod.mk.injEq, ScanOutcome.failed.injEq] at h
        exact h.2
      · rcases hR : resolveTarget lookup target with e | rt <;> rw [hR] at h
        · simp only [Prod.mk.injEq, ScanOutcome.failed.injEq] at h
          exact h.2
        · simp at h
    rw [hst] at hE
    have hkey : st1 = mapSet st cid now := by
      simp only [enforceRateLimit] at hE
      split_ifs at hE with hlt
      · simp at hE
      · rw [Prod.mk.injEq] at hE
        exact hE.2.symm
    have hget : mapGet st1 cid = some now := by
      rw [hkey]
      exact mapGet_mapSet_self st cid now
    have hrl : enforceRateLimit now2 st1 cid = (false, st1) := by
      simp only [enforceRateLimit, hget, Option.getD_some]
      rw [if_pos (show now2 - now < rateLimitWindowMs from hwin)]
    rw [handleScan, hrl]

/-- Witness for C10: a first request at `now = 20000` that is admitted but
fails port validation, followed 5 seconds later by a second request from
the same client, which is rate-limited. -/
theorem claim_c10_window_consumed_witness :
    handleScan (fun _ => none) (fun _ => .timedOut) 25000 ("ts2")
      [(("c"), 20000)] ("c") ("8.8.8.8") (some [JVal.num 80]) =
      (.rateLimited ("Too many requests: wait 10 seconds between scans."),
        [(("c"), 20000)]) :=
  claim_c10_window_consumed (fun _ => none) (fun _ => .timedOut) 20000 ("ts")
    [] ("c") ("8.8.8.8") (some [JVal.num 9999])
    ("Ports must be in the allowed list") [(("c"), 20000)]
    (fun _ => none) (fun _ => .timedOut) 25000 ("ts2") ("8.8.8.8")
    (some [JVal.num 80]) (by decide) (by decide)

/-- Counterexample to claim C1 as stated: the IPv6 unspecified address `::`
is a syntactically valid IPv6 literal that the classifier marks public, so
`resolveTarget` accepts it (in any DNS environment) and returns it as the
scan address — contradicting the invariant that the address is never the
unspecified address. -/
theorem claim_c1_counterexample :
    resolveTarget (fun _ => none) ("::") = .ok ⟨("::"), ("::")⟩ ∧
    isUnspecifiedAddress ("::") = true ∧ isPrivateIp ("::") = false := by
  decide

/-- Claim C1 (amended): for every target on which `resolveTarget` succeeds,
the returned address is a syntactically valid IPv4 or IPv6 literal that the
classifier marks public: an IPv4 address is never in 10.0.0.0/8,
127.0.0.0/8, 0.0.0.0/8 (so never the IPv4 unspecified address),
169.254.0.0/16, 172.16.0.0/12 or 192.168.0.0/16, and an IPv6 address is
never `::1` nor prefixed (case-insensitively) by `fe80:`, `fc` or `fd`.
The IPv6 unspecified address `::` is NOT excluded (see the
counterexample), so the spec's blanket "never unspecified" does not hold. -/
theorem claim_c1_resolved_public (lookup : String → Option (List String))
    (target : String) (rt : ResolvedTarget)
    (h : resolveTarget lookup target = .ok rt) :
    isIP rt.address ≠ 0 ∧ isPrivateIp rt.address = false ∧
    (∀ a b c d : ℕ, parseIPv4? rt.address = some (a, b, c, d) →
      (a ≠ 10 ∧ a ≠ 127 ∧ a ≠ 0 ∧ ¬(a = 169 ∧ b = 254) ∧
        ¬(a = 172 ∧ 16 ≤ b ∧ b ≤ 31) ∧ ¬(a = 192 ∧ b = 168))) ∧
    (isIP rt.address = 6 →
      (lowerStr rt.address ≠ ("::1") ∧
        strStartsWith (lowerStr rt.address) ("fe80:") = false ∧
        strStartsWith (lowerStr rt.address) ("fc") = false ∧
        strStartsWith (lowerStr rt.address) ("fd") = false)) := by
  have hpriv : isPrivateIp rt.address = false := by
    simp only [resolveTarget] at h
    split_ifs at h with h1 h2 h3 h4 h5
    · simp only [Except.ok.injEq] at h
      subst h
      exact Bool.eq_false_iff.mpr h4
    · split at h
      · exact Except.noConfusion h
      · split at h
        · exact Except.noConfusion h
        · rename_i addr hF
          simp only [Except.ok.injEq] at h
          subst h
          have hfind := List.find?_some hF
          simpa using hfind
  exact ⟨isIP_ne_zero_of_public hpriv, hpriv,
    fun a b c d hp => public_v4_ranges hpriv hp,
    fun h6 => public_v6_prefixes hpriv h6⟩

/-- Witness for C1 (amended) at the concrete public literal `8.8.8.8`. -/
theorem claim_c1_resolved_public_witness :
    isIP ("8.8.8.8") ≠ 0 ∧ isPrivateIp ("8.8.8.8") = false :=
  ⟨(claim_c1_resolved_public (fun _ => none) ("8.8.8.8")
      ⟨("8.8.8.8"), ("8.8.8.8")⟩ (by decide)).1,
   (claim_c1_resolved_public (fun _ => none) ("8.8.8.8")
      ⟨("8.8.8.8"), ("8.8.8.8")⟩ (by decide)).2.1⟩
